import Mathlib

/-!
Shallow embedding of `src/extension.ts` from the vscode-elixir-ls extension.

The file is sequential glue code around the VS Code API: an environment
probe (`testElixirCommand` / `testElixir`), a conflicting-extension
detector (`detectConflictingExtension`), the activation routine
(`activate`) that assembles the language-client configuration and starts
the client, the debug-info command (`copyDebugInfo`) and the
deactivation hook (`deactivate`).

The host environment (process execution via `execSync`, `shell.which`,
the extension registry, `os.platform` / `os.release`, `process.env.PATH`,
the extension installation path) is modelled as an explicit `HostEnv`
record.  Side effects (process executions, warning and information
notifications, console diagnostics, clipboard writes, command
registration, file-watcher creation, client start/stop) are modelled as
an explicit event trace `List Event` produced alongside each function's
return value.  A JavaScript exception escaping a function is modelled by
a `Bool` "threw" flag together with the trace of effects performed
before the throw; `execSync` failure (executable not found or non-zero
exit) is modelled by the environment's `execResult` returning `none`.
-/

/-- A visible side effect performed through the host API. -/
inductive Event
  | exec (cmd : String)
  | showError (msg : String)
  | consoleWarn (msg : String)
  | showInfo (msg : String)
  | clipboardWrite (text : String)
  | registerCommand (name : String)
  | createFileSystemWatcher (glob : String)
  | clientStart
  | clientStop
deriving DecidableEq, Repr

/-- An installed extension as seen through `vscode.extensions.getExtension`:
only its manifest (`packageJSON.version`) is consulted by this code. -/
structure InstalledExtension where
  version : String
deriving DecidableEq, Repr

/-- The host environment the extension code runs against.
`execResult cmd` is the captured stdout of running `cmd` via `execSync`
(`none` models `execSync` throwing: executable not found or non-zero
exit).  `whichElixir` models `shell.which("elixir")`.  `getExtension`
models the host's extension registry.  `platform`/`release` model
`os.platform()`/`os.release()`, `pathVar` models `process.env["PATH"]`,
and `extensionPath` is the extension's installation directory used by
`context.asAbsolutePath`. -/
structure HostEnv where
  execResult : String → Option String
  whichElixir : Option String
  getExtension : String → Option InstalledExtension
  platform : String
  release : String
  pathVar : String
  extensionPath : String

/-- Model of the host API `context.asAbsolutePath`: resolves a relative
path against the extension's installation path. -/
def asAbsolutePath (extensionPath relPath : String) : String :=
  extensionPath ++ "/" ++ relPath

/-- The command line `testElixirCommand` passes to `execSync`:
`` `${command} -e ""` ``. -/
def testCmd (command : String) : String :=
  command ++ " -e \"\""

/-- `testElixirCommand(command)`: run `` `${command} -e ""` `` via
`execSync`, returning the captured stdout buffer, or `false` (here:
`none`) if the call throws.  The attempted process execution is recorded
in the trace either way. -/
def testElixirCommand (env : HostEnv) (command : String) :
    Option String × List Event :=
  (env.execResult (testCmd command), [Event.exec (testCmd command)])

/-- Lines 29-36 of `testElixir`: the direct attempt, followed — only
when the direct attempt failed and `shell.which("elixir")` resolved a
path — by exactly one retry at the resolved path.  Returns the final
`testResult` together with the executions performed. -/
def probeAttempt (env : HostEnv) : Option String × List Event :=
  let r1 := testElixirCommand env "elixir"
  match r1.1 with
  | some testResult => (some testResult, r1.2)
  | none =>
    match env.whichElixir with
    | some elixirPath =>
      let r2 := testElixirCommand env elixirPath
      (r2.1, r1.2 ++ r2.2)
    | none => (none, r1.2)

/-- The "failed to run" warning message shown by `testElixir`. -/
def failedToRunMessage : String :=
  "Failed to run 'elixir' command. ElixirLS will probably fail to launch. Logged PATH to Development Console."

/-- The console diagnostic that logs the current search path. -/
def pathLogMessage (path : String) : String :=
  "Failed to run 'elixir' command. Current process's PATH: " ++ path

/-- The "extraneous print" warning message shown by `testElixir`. -/
def extraneousPrintMessage : String :=
  "Running 'elixir' command caused extraneous print to stdout. See VS Code's developer console for details."

/-- The console diagnostic that logs the captured stdout. -/
def extraneousLogMessage (output : String) : String :=
  "Running 'elixir -e \"\"' printed to stdout:\n" ++ output

/-- `testElixir()`: probe the runtime, then branch on the outcome
(lines 38-56): not runnable at all — "failed to run" warning plus PATH
log, `false`; runnable but non-empty stdout — "extraneous print"
warning plus stdout log, `false`; otherwise `true`. -/
def testElixir (env : HostEnv) : Bool × List Event :=
  let t := probeAttempt env
  match t.1 with
  | none =>
    (false, t.2 ++ [Event.showError failedToRunMessage,
                    Event.consoleWarn (pathLogMessage env.pathVar)])
  | some testResult =>
    if testResult.length > 0 then
      (false, t.2 ++ [Event.showError extraneousPrintMessage,
                      Event.consoleWarn (extraneousLogMessage testResult)])
    else
      (true, t.2)

/-- The conflict warning naming a conflicting extension. -/
def conflictMessage (extensionId : String) : String :=
  "Warning: " ++ extensionId ++ " is not compatible with ElixirLS Fork, please uninstall " ++ extensionId

/-- `detectConflictingExtension(extensionId)`: warn if the identifier is
installed; otherwise do nothing.  Its only effect is the possible
warning, returned as a trace. -/
def detectConflictingExtension (env : HostEnv) (extensionId : String) :
    List Event :=
  match env.getExtension extensionId with
  | some _ => [Event.showError (conflictMessage extensionId)]
  | none => []

/-- The server-launch descriptor (`serverOpts`): a command path and the
optional argument list, which the source never sets. -/
structure Executable where
  command : String
  args : Option (List String)
deriving DecidableEq, Repr

/-- `ServerOptions`: run and debug configurations (the source uses the
same `serverOpts` object for both). -/
structure ServerOptions where
  run : Executable
  debug : Executable
deriving DecidableEq, Repr

/-- One entry of the client's `documentSelector`. -/
structure DocumentFilter where
  language : String
  scheme : String
deriving DecidableEq, Repr

/-- The client library's output-channel reveal policy. -/
inductive RevealOutputChannelOn
  | Info
  | Warn
  | Error
  | Never
deriving DecidableEq, Repr

/-- The `synchronize` block of the client options: the settings section
forwarded to the server and the globs of the file-system watchers whose
events are forwarded. -/
structure SynchronizeOptions where
  configurationSection : String
  fileEvents : List String
deriving DecidableEq, Repr

/-- `LanguageClientOptions` as assembled by `activate`. -/
structure LanguageClientOptions where
  documentSelector : List DocumentFilter
  revealOutputChannelOn : RevealOutputChannelOn
  synchronize : SynchronizeOptions
deriving DecidableEq, Repr

/-- The constructed `LanguageClient`: its id, display name, server
options and client options. -/
structure LanguageClient where
  id : String
  name : String
  serverOptions : ServerOptions
  clientOptions : LanguageClientOptions
deriving DecidableEq, Repr

/-- A disposable handle registered in `context.subscriptions`; the only
one this code produces is the handle returned by
`languageClient.start()`. -/
inductive Disposable
  | clientStartHandle (client : LanguageClient)
deriving DecidableEq, Repr

/-- The glob of the single file-system watcher created by `activate`. -/
def elixirWatchGlob : String :=
  "**/*.\x7bex,exs,erl,yrl,xrl,eex\x7d"

/-- The platform-selected launcher script name (line 70-71). -/
def launcherScript (platform : String) : String :=
  if platform == "win32" then "language_server.bat" else "language_server.sh"

/-- The result of `activate`: the event trace, the module-level
`languageClient` that was assigned, and `context.subscriptions`. -/
structure ActivateResult where
  trace : List Event
  languageClient : LanguageClient
  subscriptions : List Disposable
deriving Repr

/-- `activate(context)`: probe the environment, check the three
conflicting extensions, register the debug-info command, assemble the
server and client options, construct the language client, start it and
push the start handle onto the context's subscriptions.  Nothing is
conditional on the probe or the conflict checks. -/
def activate (env : HostEnv) : ActivateResult :=
  let probe := testElixir env
  let c1 := detectConflictingExtension env "mjmcloug.vscode-elixir"
  let c2 := detectConflictingExtension env "elixir-lsp.elixir-ls"
  let c3 := detectConflictingExtension env "sammkj.vscode-elixir-formatter"
  let command := launcherScript env.platform
  let serverOpts : Executable :=
    { command := asAbsolutePath env.extensionPath ("./elixir-ls-release/" ++ command),
      args := none }
  let serverOptions : ServerOptions := { run := serverOpts, debug := serverOpts }
  let clientOptions : LanguageClientOptions :=
    { documentSelector := [⟨"elixir", "file"⟩, ⟨"elixir", "untitled"⟩],
      revealOutputChannelOn := RevealOutputChannelOn.Never,
      synchronize :=
        { configurationSection := "elixirLS",
          fileEvents := [elixirWatchGlob] } }
  let languageClient : LanguageClient :=
    { id := "elixirLS", name := "ElixirLS",
      serverOptions := serverOptions, clientOptions := clientOptions }
  let disposable := Disposable.clientStartHandle languageClient
  { trace := probe.2 ++ c1 ++ c2 ++ c3
      ++ [Event.registerCommand "extension.copyDebugInfo",
          Event.createFileSystemWatcher elixirWatchGlob,
          Event.clientStart],
    languageClient := languageClient,
    subscriptions := [disposable] }

/-- The result of `deactivate`: either `undefined` (no client was ever
assigned) or the `Thenable` returned by stopping the client. -/
inductive DeactivateResult
  | undef
  | stopping (client : LanguageClient)
deriving DecidableEq, Repr

/-- `deactivate()`: return `undefined` when the module-level client
handle was never set, otherwise stop the client and return the result. -/
def deactivate (languageClient : Option LanguageClient) :
    DeactivateResult × List Event :=
  match languageClient with
  | none => (DeactivateResult.undef, [])
  | some client => (DeactivateResult.stopping client, [Event.clientStop])

/-- The report text assembled by `copyDebugInfo` from the runtime
version output, the extension manifest version, and the platform and
release strings. -/
def debugMessage (env : HostEnv) (elixirVersion extVersion : String) : String :=
  "\n  * Elixir & Erlang versions (elixir --version): " ++ elixirVersion ++
  "\n  * VSCode ElixirLS Fork version: " ++ extVersion ++
  "\n  * Operating System Version: " ++ env.platform ++ " " ++ env.release ++
  "\n  "

/-- `copyDebugInfo()`: run `elixir --version` (no exception handling,
no path-resolution fallback), look up `jakebecker.elixir-ls` and
dereference its manifest with no null check, then show an information
notification and write the report to the clipboard.  The `Bool` is true
when the function throws; the trace holds the effects performed before
the throw. -/
def copyDebugInfo (env : HostEnv) : Bool × List Event :=
  match env.execResult "elixir --version" with
  | none => (true, [Event.exec "elixir --version"])
  | some elixirVersion =>
    match env.getExtension "jakebecker.elixir-ls" with
    | none => (true, [Event.exec "elixir --version"])
    | some extension =>
      let message := debugMessage env elixirVersion extension.version
      (false, [Event.exec "elixir --version",
               Event.showInfo ("Copied to clipboard: " ++ message),
               Event.clipboardWrite message])

/-- The user-visible warning messages of a trace, in order. -/
def showErrors (t : List Event) : List String :=
  t.filterMap fun e =>
    match e with
    | Event.showError m => some m
    | _ => none

/-- The console diagnostics of a trace, in order. -/
def consoleWarns (t : List Event) : List String :=
  t.filterMap fun e =>
    match e with
    | Event.consoleWarn m => some m
    | _ => none

/-- The process executions of a trace, in order. -/
def execsOf (t : List Event) : List String :=
  t.filterMap fun e =>
    match e with
    | Event.exec c => some c
    | _ => none

/-- The information notifications of a trace, in order. -/
def infosOf (t : List Event) : List String :=
  t.filterMap fun e =>
    match e with
    | Event.showInfo m => some m
    | _ => none

/-- The clipboard writes of a trace, in order. -/
def clipboardOf (t : List Event) : List String :=
  t.filterMap fun e =>
    match e with
    | Event.clipboardWrite s => some s
    | _ => none

/-- The file-system watcher creations of a trace, in order. -/
def watchersOf (t : List Event) : List String :=
  t.filterMap fun e =>
    match e with
    | Event.createFileSystemWatcher g => some g
    | _ => none

/-- `s` contains `sub` as a literal substring. -/
def strContains (s sub : String) : Prop :=
  ∃ pre post, s = pre ++ sub ++ post

/-- `s` ends in `tail`. -/
def endsIn (s tail : String) : Prop :=
  ∃ pre, s = pre ++ tail

/-- The last character of a string, if any. -/
def lastChar (s : String) : Option Char :=
  s.data.getLast?

theorem lastChar_append (x A : String) (h : A.data ≠ []) :
    lastChar (x ++ A) = lastChar A := by
  rw [lastChar, lastChar, String.data_append,
    List.getLast?_append_of_ne_nil _ h]

theorem not_endsIn_of_lastChar_ne (s t : String) (c d : Char)
    (hs : lastChar s = some c) (ht : lastChar t = some d) (hcd : c ≠ d) :
    ¬ endsIn s t := by
  rintro ⟨pre, rfl⟩
  have htne : t.data ≠ [] := by
    intro hnil
    rw [lastChar, hnil] at ht
    simp at ht
  rw [lastChar_append _ _ htne, ht] at hs
  exact hcd (Option.some.inj hs).symm

theorem showErrors_append (a b : List Event) :
    showErrors (a ++ b) = showErrors a ++ showErrors b := by
  simp [showErrors]

theorem consoleWarns_append (a b : List Event) :
    consoleWarns (a ++ b) = consoleWarns a ++ consoleWarns b := by
  simp [consoleWarns]

theorem execsOf_append (a b : List Event) :
    execsOf (a ++ b) = execsOf a ++ execsOf b := by
  simp [execsOf]

theorem watchersOf_append (a b : List Event) :
    watchersOf (a ++ b) = watchersOf a ++ watchersOf b := by
  simp [watchersOf]

theorem probeAttempt_trace_direct (env : HostEnv) (b : String)
    (h1 : env.execResult (testCmd "elixir") = some b) :
    probeAttempt env = (some b, [Event.exec (testCmd "elixir")]) := by
  simp [probeAttempt, testElixirCommand, h1]

theorem probeAttempt_trace_unresolved (env : HostEnv)
    (h1 : env.execResult (testCmd "elixir") = none)
    (h2 : env.whichElixir = none) :
    probeAttempt env = (none, [Event.exec (testCmd "elixir")]) := by
  simp [probeAttempt, testElixirCommand, h1, h2]

theorem probeAttempt_trace_retry (env : HostEnv) (p : String)
    (h1 : env.execResult (testCmd "elixir") = none)
    (h2 : env.whichElixir = some p) :
    probeAttempt env =
      (env.execResult (testCmd p),
        [Event.exec (testCmd "elixir"), Event.exec (testCmd p)]) := by
  simp [probeAttempt, testElixirCommand, h1, h2]

theorem showErrors_probeAttempt (env : HostEnv) :
    showErrors (probeAttempt env).2 = [] := by
  rcases h1 : env.execResult (testCmd "elixir") with _ | b
  · rcases h2 : env.whichElixir with _ | p
    · rw [probeAttempt_trace_unresolved env h1 h2]
      simp [showErrors]
    · rw [probeAttempt_trace_retry env p h1 h2]
      simp [showErrors]
  · rw [probeAttempt_trace_direct env b h1]
    simp [showErrors]

theorem consoleWarns_probeAttempt (env : HostEnv) :
    consoleWarns (probeAttempt env).2 = [] := by
  rcases h1 : env.execResult (testCmd "elixir") with _ | b
  · rcases h2 : env.whichElixir with _ | p
    · rw [probeAttempt_trace_unresolved env h1 h2]
      simp [consoleWarns]
    · rw [probeAttempt_trace_retry env p h1 h2]
      simp [consoleWarns]
  · rw [probeAttempt_trace_direct env b h1]
    simp [consoleWarns]

theorem watchersOf_probeAttempt (env : HostEnv) :
    watchersOf (probeAttempt env).2 = [] := by
  rcases h1 : env.execResult (testCmd "elixir") with _ | b
  · rcases h2 : env.whichElixir with _ | p
    · rw [probeAttempt_trace_unresolved env h1 h2]
      simp [watchersOf]
    · rw [probeAttempt_trace_retry env p h1 h2]
      simp [watchersOf]
  · rw [probeAttempt_trace_direct env b h1]
    simp [watchersOf]

theorem testElixir_failed (env : HostEnv) (hp : (probeAttempt env).1 = none) :
    testElixir env =
      (false, (probeAttempt env).2 ++
        [Event.showError failedToRunMessage,
         Event.consoleWarn (pathLogMessage env.pathVar)]) := by
  simp [testElixir, hp]

theorem testElixir_extraneous (env : HostEnv) (out : String)
    (hp : (probeAttempt env).1 = some out) (hne : out.length > 0) :
    testElixir env =
      (false, (probeAttempt env).2 ++
        [Event.showError extraneousPrintMessage,
         Event.consoleWarn (extraneousLogMessage out)]) := by
  simp [testElixir, hp, hne]

theorem testElixir_ok (env : HostEnv) (out : String)
    (hp : (probeAttempt env).1 = some out) (hne : ¬ out.length > 0) :
    testElixir env = (true, (probeAttempt env).2) := by
  simp [testElixir, hp, hne]

theorem showErrors_testElixir_cases (env : HostEnv) :
    showErrors (testElixir env).2 = [] ∨
    showErrors (testElixir env).2 = [failedToRunMessage] ∨
    showErrors (testElixir env).2 = [extraneousPrintMessage] := by
  rcases hp : (probeAttempt env).1 with _ | out
  · rw [testElixir_failed env hp]
    rw [showErrors_append, showErrors_probeAttempt]
    right; left
    simp [showErrors]
  · by_cases hne : out.length > 0
    · rw [testElixir_extraneous env out hp hne]
      rw [showErrors_append, showErrors_probeAttempt]
      right; right
      simp [showErrors]
    · rw [testElixir_ok env out hp hne, showErrors_probeAttempt]
      left; rfl

theorem watchersOf_testElixir (env : HostEnv) :
    watchersOf (testElixir env).2 = [] := by
  rcases hp : (probeAttempt env).1 with _ | out
  · rw [testElixir_failed env hp]
    rw [watchersOf_append, watchersOf_probeAttempt]
    simp [watchersOf]
  · by_cases hne : out.length > 0
    · rw [testElixir_extraneous env out hp hne]
      rw [watchersOf_append, watchersOf_probeAttempt]
      simp [watchersOf]
    · rw [testElixir_ok env out hp hne, watchersOf_probeAttempt]

theorem watchersOf_detectConflictingExtension (env : HostEnv) (extensionId : String) :
    watchersOf (detectConflictingExtension env extensionId) = [] := by
  rcases h : env.getExtension extensionId with _ | e
  · simp [detectConflictingExtension, h, watchersOf]
  · simp [detectConflictingExtension, h, watchersOf]

/-- C1: when the probed command (possibly after the retry) succeeds with
non-empty stdout, `testElixir` shows the "extraneous print" warning and
not the "failed to run" warning, logs the captured output to the
console, and returns false; and the "failed to run" warning is shown
only when the command could not be executed at all. -/
theorem extraneous_print_branch (env : HostEnv) (out : String)
    (h : (probeAttempt env).1 = some out) (hne : out.length > 0) :
    (testElixir env).1 = false ∧
    showErrors (testElixir env).2 = [extraneousPrintMessage] ∧
    consoleWarns (testElixir env).2 = [extraneousLogMessage out] ∧
    failedToRunMessage ∉ showErrors (testElixir env).2 ∧
    (∀ env2 : HostEnv, failedToRunMessage ∈ showErrors (testElixir env2).2 →
      (probeAttempt env2).1 = none) := by
  have hshow : showErrors (testElixir env).2 = [extraneousPrintMessage] := by
    rw [testElixir_extraneous env out h hne]
    rw [showErrors_append, showErrors_probeAttempt]
    simp [showErrors]
  refine ⟨by rw [testElixir_extraneous env out h hne], hshow, ?_, ?_, ?_⟩
  · rw [testElixir_extraneous env out h hne]
    rw [consoleWarns_append, consoleWarns_probeAttempt]
    simp [consoleWarns]
  · rw [hshow]
    intro hmem
    have heq : failedToRunMessage = extraneousPrintMessage := by
      simpa using hmem
    exact absurd heq (by decide)
  · intro env2 hmem
    rcases hp2 : (probeAttempt env2).1 with _ | out2
    · rfl
    · exfalso
      by_cases hlen2 : out2.length > 0
      · rw [show showErrors (testElixir env2).2 = [extraneousPrintMessage] by
          rw [testElixir_extraneous env2 out2 hp2 hlen2]
          rw [showErrors_append, showErrors_probeAttempt]
          simp [showErrors]] at hmem
        have heq : failedToRunMessage = extraneousPrintMessage := by simpa using hmem
        exact absurd heq (by decide)
      · rw [show showErrors (testElixir env2).2 = [] by
          rw [testElixir_ok env2 out2 hp2 hlen2, showErrors_probeAttempt]] at hmem
        simp at hmem

/-- A host environment in which the direct `elixir -e ""` invocation
succeeds but prints to stdout. -/
def envExtraneous : HostEnv :=
  { execResult := fun c =>
      if c = testCmd "elixir" then some "warning: redefining module\n" else none,
    whichElixir := none,
    getExtension := fun _ => none,
    platform := "linux",
    release := "6.1.0",
    pathVar := "/usr/local/bin:/usr/bin",
    extensionPath := "/home/user/.vscode/extensions/elixir-ls" }

theorem extraneous_print_branch_witness :
    (probeAttempt envExtraneous).1 = some "warning: redefining module\n" ∧
    ("warning: redefining module\n").length > 0 ∧
    ((testElixir envExtraneous).1 = false ∧
      showErrors (testElixir envExtraneous).2 = [extraneousPrintMessage]) :=
  ⟨by decide, by decide,
    (extraneous_print_branch envExtraneous "warning: redefining module\n"
        (by decide) (by decide)).1,
    (extraneous_print_branch envExtraneous "warning: redefining module\n"
        (by decide) (by decide)).2.1⟩

theorem activate_trace (env : HostEnv) :
    (activate env).trace =
      (testElixir env).2
      ++ detectConflictingExtension env "mjmcloug.vscode-elixir"
      ++ detectConflictingExtension env "elixir-lsp.elixir-ls"
      ++ detectConflictingExtension env "sammkj.vscode-elixir-formatter"
      ++ [Event.registerCommand "extension.copyDebugInfo",
          Event.createFileSystemWatcher elixirWatchGlob,
          Event.clientStart] := rfl

theorem activate_run_command (env : HostEnv) :
    (activate env).languageClient.serverOptions.run.command =
      env.extensionPath ++ "/" ++
        ("./elixir-ls-release/" ++ launcherScript env.platform) := rfl

/-- C2: activation always constructs the language client and starts it,
registering the start handle in the context's subscriptions, whatever
the probe and the conflict checks did. -/
theorem activate_unconditional (env : HostEnv) :
    Event.clientStart ∈ (activate env).trace ∧
    (activate env).trace.getLast? = some Event.clientStart ∧
    (activate env).subscriptions =
      [Disposable.clientStartHandle (activate env).languageClient] ∧
    (activate env).languageClient.id = "elixirLS" ∧
    (activate env).languageClient.name = "ElixirLS" := by
  refine ⟨?_, ?_, rfl, rfl, rfl⟩
  · rw [activate_trace]
    simp
  · rw [activate_trace]
    rw [List.getLast?_append_of_ne_nil _ (by simp)]
    rfl

theorem execsOf_testElixir (env : HostEnv) :
    execsOf (testElixir env).2 = execsOf (probeAttempt env).2 := by
  rcases hp : (probeAttempt env).1 with _ | out
  · rw [testElixir_failed env hp, execsOf_append]
    simp [execsOf]
  · by_cases hne : out.length > 0
    · rw [testElixir_extraneous env out hp hne, execsOf_append]
      simp [execsOf]
    · rw [testElixir_ok env out hp hne]

/-- C3: the probe attempts the direct invocation first; only when that
fails and the path-search resolves a path is exactly one retry
performed, so one or two executions happen, never more; when the
runtime is neither directly runnable nor resolvable-and-runnable, the
probe shows exactly one warning referencing the runtime, logs the
search path to the console, and returns false. -/
theorem probe_execution_discipline (env : HostEnv) :
    (execsOf (testElixir env).2).head? = some (testCmd "elixir") ∧
    (∀ b, env.execResult (testCmd "elixir") = some b →
      execsOf (testElixir env).2 = [testCmd "elixir"]) ∧
    (env.execResult (testCmd "elixir") = none → env.whichElixir = none →
      execsOf (testElixir env).2 = [testCmd "elixir"]) ∧
    (∀ p, env.execResult (testCmd "elixir") = none → env.whichElixir = some p →
      execsOf (testElixir env).2 = [testCmd "elixir", testCmd p]) ∧
    (execsOf (testElixir env).2).length ≤ 2 ∧
    ((probeAttempt env).1 = none →
      (testElixir env).1 = false ∧
      showErrors (testElixir env).2 = [failedToRunMessage] ∧
      strContains failedToRunMessage "elixir" ∧
      consoleWarns (testElixir env).2 = [pathLogMessage env.pathVar]) := by
  have hexecs : execsOf (probeAttempt env).2 = [testCmd "elixir"] ∨
      ∃ p, env.whichElixir = some p ∧
        env.execResult (testCmd "elixir") = none ∧
        execsOf (probeAttempt env).2 = [testCmd "elixir", testCmd p] := by
    rcases h1 : env.execResult (testCmd "elixir") with _ | b
    · rcases h2 : env.whichElixir with _ | p
      · left
        rw [probeAttempt_trace_unresolved env h1 h2]
        simp [execsOf]
      · right
        refine ⟨p, rfl, rfl, ?_⟩
        rw [probeAttempt_trace_retry env p h1 h2]
        simp [execsOf]
    · left
      rw [probeAttempt_trace_direct env b h1]
      simp [execsOf]
  refine ⟨?_, ?_, ?_, ?_, ?_, ?_⟩
  · rw [execsOf_testElixir]
    rcases hexecs with h | ⟨p, _, _, h⟩ <;> rw [h] <;> rfl
  · intro b hb
    rw [execsOf_testElixir, probeAttempt_trace_direct env b hb]
    simp [execsOf]
  · intro h1 h2
    rw [execsOf_testElixir, probeAttempt_trace_unresolved env h1 h2]
    simp [execsOf]
  · intro p h1 h2
    rw [execsOf_testElixir, probeAttempt_trace_retry env p h1 h2]
    simp [execsOf]
  · rw [execsOf_testElixir]
    rcases hexecs with h | ⟨p, _, _, h⟩ <;> rw [h] <;> simp
  · intro hp
    refine ⟨by rw [testElixir_failed env hp], ?_, ?_, ?_⟩
    · rw [testElixir_failed env hp]
      rw [showErrors_append, showErrors_probeAttempt]
      simp [showErrors]
    · exact ⟨"Failed to run '",
        "' command. ElixirLS will probably fail to launch. Logged PATH to Development Console.",
        by decide⟩
    · rw [testElixir_failed env hp]
      rw [consoleWarns_append, consoleWarns_probeAttempt]
      simp [consoleWarns]

/-- A host environment in which the runtime is neither directly
runnable nor runnable at the path resolved by the search utility. -/
def envMissing : HostEnv :=
  { execResult := fun _ => none,
    whichElixir := some "/usr/local/bin/elixir",
    getExtension := fun _ => none,
    platform := "darwin",
    release := "23.5.0",
    pathVar := "/usr/bin:/bin",
    extensionPath := "/Users/dev/.vscode/extensions/elixir-ls" }

theorem probe_execution_discipline_witness :
    (envMissing.execResult (testCmd "elixir") = none ∧
     envMissing.whichElixir = some "/usr/local/bin/elixir" ∧
     (probeAttempt envMissing).1 = none) ∧
    execsOf (testElixir envMissing).2 =
      [testCmd "elixir", testCmd "/usr/local/bin/elixir"] ∧
    showErrors (testElixir envMissing).2 = [failedToRunMessage] ∧
    consoleWarns (testElixir envMissing).2 = [pathLogMessage "/usr/bin:/bin"] :=
  ⟨⟨rfl, rfl, rfl⟩,
    (probe_execution_discipline envMissing).2.2.2.1 "/usr/local/bin/elixir" rfl rfl,
    ((probe_execution_discipline envMissing).2.2.2.2.2 rfl).2.1,
    ((probe_execution_discipline envMissing).2.2.2.2.2 rfl).2.2.2⟩

/-- C4: the server-launch command path ends in `language_server.bat`
exactly when the platform value is `win32` and in `language_server.sh`
for all other platform values; the path is `./elixir-ls-release/<script>`
resolved against the extension's installation path, the same executable
serves both run and debug, and no arguments are configured. -/
theorem launcher_path_platform (env : HostEnv) :
    (activate env).languageClient.serverOptions.run.command =
      asAbsolutePath env.extensionPath
        ("./elixir-ls-release/" ++ launcherScript env.platform) ∧
    (activate env).languageClient.serverOptions.debug =
      (activate env).languageClient.serverOptions.run ∧
    (activate env).languageClient.serverOptions.run.args = none ∧
    (endsIn (activate env).languageClient.serverOptions.run.command
        "language_server.bat" ↔ env.platform = "win32") ∧
    (env.platform ≠ "win32" →
      endsIn (activate env).languageClient.serverOptions.run.command
        "language_server.sh") := by
  refine ⟨rfl, rfl, rfl, ?_, ?_⟩
  · by_cases hw : env.platform = "win32"
    · constructor
      · intro _
        exact hw
      · intro _
        refine ⟨env.extensionPath ++ "/" ++ "./elixir-ls-release/", ?_⟩
        rw [activate_run_command]
        simp [launcherScript, hw, String.append_assoc]
    · constructor
      · intro hbat
        exfalso
        have hsh : (activate env).languageClient.serverOptions.run.command =
            (env.extensionPath ++ "/") ++
              ("./elixir-ls-release/" ++ "language_server.sh") := by
          rw [activate_run_command]
          simp [launcherScript, hw]
        rw [hsh] at hbat
        have hlast : lastChar ((env.extensionPath ++ "/") ++
            ("./elixir-ls-release/" ++ "language_server.sh")) = some 'h' := by
          rw [lastChar_append _ _ (by decide)]
          decide
        exact not_endsIn_of_lastChar_ne _ "language_server.bat" 'h' 't'
          hlast (by decide) (by decide) hbat
      · intro hw2
        exact absurd hw2 hw
  · intro hw
    refine ⟨env.extensionPath ++ "/" ++ "./elixir-ls-release/", ?_⟩
    rw [activate_run_command]
    simp [launcherScript, hw, String.append_assoc]

/-- A host environment on a non-Windows platform with no runtime and no
conflicting or installed extensions. -/
def envLinux : HostEnv :=
  { execResult := fun _ => none,
    whichElixir := none,
    getExtension := fun _ => none,
    platform := "linux",
    release := "6.1.0",
    pathVar := "/usr/bin",
    extensionPath := "/home/user/.vscode/extensions/elixir-ls" }

theorem launcher_path_platform_witness :
    envLinux.platform ≠ "win32" ∧
    endsIn (activate envLinux).languageClient.serverOptions.run.command
      "language_server.sh" :=
  ⟨by decide, (launcher_path_platform envLinux).2.2.2.2 (by decide)⟩

/-- C5: the conflict detector shows exactly one warning naming the
identifier when the registry contains it, shows nothing when it does
not, and has no other effect. -/
theorem conflict_detector (env : HostEnv) (extensionId : String) :
    (∀ e, env.getExtension extensionId = some e →
      detectConflictingExtension env extensionId =
        [Event.showError (conflictMessage extensionId)] ∧
      strContains (conflictMessage extensionId) extensionId) ∧
    (env.getExtension extensionId = none →
      detectConflictingExtension env extensionId = []) := by
  constructor
  · intro e he
    constructor
    · simp [detectConflictingExtension, he]
    · refine ⟨"Warning: ",
        " is not compatible with ElixirLS Fork, please uninstall " ++ extensionId, ?_⟩
      simp [conflictMessage, String.append_assoc]
  · intro he
    simp [detectConflictingExtension, he]

/-- A host environment whose registry holds exactly one of the three
conflicting extensions. -/
def envConflict : HostEnv :=
  { execResult := fun _ => none,
    whichElixir := none,
    getExtension := fun i =>
      if i = "mjmcloug.vscode-elixir" then some ⟨"1.1.0"⟩ else none,
    platform := "linux",
    release := "5.15.0",
    pathVar := "/usr/bin",
    extensionPath := "/ext" }

theorem conflict_detector_witness :
    (envConflict.getExtension "mjmcloug.vscode-elixir" = some ⟨"1.1.0"⟩ ∧
     detectConflictingExtension envConflict "mjmcloug.vscode-elixir" =
       [Event.showError (conflictMessage "mjmcloug.vscode-elixir")]) ∧
    (envConflict.getExtension "elixir-lsp.elixir-ls" = none ∧
     detectConflictingExtension envConflict "elixir-lsp.elixir-ls" = []) :=
  ⟨⟨by decide,
    ((conflict_detector envConflict "mjmcloug.vscode-elixir").1 ⟨"1.1.0"⟩
      (by decide)).1⟩,
   ⟨by decide,
    (conflict_detector envConflict "elixir-lsp.elixir-ls").2 (by decide)⟩⟩

/-- C6: when the version query succeeds and the extension lookup
succeeds, the debug-info command writes to the clipboard a report
containing the runtime version output, the extension's manifest
version, and the platform and release strings as literal substrings,
and shows an information notification echoing the same text. -/
theorem copy_debug_info_contents (env : HostEnv) (v : String)
    (ext : InstalledExtension)
    (hv : env.execResult "elixir --version" = some v)
    (he : env.getExtension "jakebecker.elixir-ls" = some ext) :
    (copyDebugInfo env).1 = false ∧
    clipboardOf (copyDebugInfo env).2 = [debugMessage env v ext.version] ∧
    infosOf (copyDebugInfo env).2 =
      ["Copied to clipboard: " ++ debugMessage env v ext.version] ∧
    strContains (debugMessage env v ext.version) v ∧
    strContains (debugMessage env v ext.version) ext.version ∧
    strContains (debugMessage env v ext.version) env.platform ∧
    strContains (debugMessage env v ext.version) env.release := by
  refine ⟨?_, ?_, ?_, ?_, ?_, ?_, ?_⟩
  · simp [copyDebugInfo, hv, he]
  · simp [copyDebugInfo, hv, he, clipboardOf]
  · simp [copyDebugInfo, hv, he, infosOf]
  · refine ⟨"\n  * Elixir & Erlang versions (elixir --version): ",
      "\n  * VSCode ElixirLS Fork version: " ++ ext.version ++
        "\n  * Operating System Version: " ++ env.platform ++ " " ++
        env.release ++ "\n  ", ?_⟩
    simp [debugMessage, String.append_assoc]
  · refine ⟨"\n  * Elixir & Erlang versions (elixir --version): " ++ v ++
        "\n  * VSCode ElixirLS Fork version: ",
      "\n  * Operating System Version: " ++ env.platform ++ " " ++
        env.release ++ "\n  ", ?_⟩
    simp [debugMessage, String.append_assoc]
  · refine ⟨"\n  * Elixir & Erlang versions (elixir --version): " ++ v ++
        "\n  * VSCode ElixirLS Fork version: " ++ ext.version ++
        "\n  * Operating System Version: ",
      " " ++ env.release ++ "\n  ", ?_⟩
    simp [debugMessage, String.append_assoc]
  · refine ⟨"\n  * Elixir & Erlang versions (elixir --version): " ++ v ++
        "\n  * VSCode ElixirLS Fork version: " ++ ext.version ++
        "\n  * Operating System Version: " ++ env.platform ++ " ",
      "\n  ", ?_⟩
    simp [debugMessage, String.append_assoc]

/-- A host environment in which the version query succeeds and the
looked-up extension identifier is installed. -/
def envDebug : HostEnv :=
  { execResult := fun c =>
      if c = "elixir --version" then some "Elixir 1.9.1" else none,
    whichElixir := none,
    getExtension := fun i =>
      if i = "jakebecker.elixir-ls" then some ⟨"0.2.24"⟩ else none,
    platform := "linux",
    release := "5.4.0",
    pathVar := "/usr/bin",
    extensionPath := "/home/user/.vscode/extensions/jakebecker.elixir-ls" }

theorem copy_debug_info_contents_witness :
    (envDebug.execResult "elixir --version" = some "Elixir 1.9.1" ∧
     envDebug.getExtension "jakebecker.elixir-ls" = some ⟨"0.2.24"⟩) ∧
    (copyDebugInfo envDebug).1 = false ∧
    clipboardOf (copyDebugInfo envDebug).2 =
      [debugMessage envDebug "Elixir 1.9.1" "0.2.24"] ∧
    strContains (debugMessage envDebug "Elixir 1.9.1" "0.2.24") "Elixir 1.9.1" :=
  ⟨⟨by decide, by decide⟩,
   (copy_debug_info_contents envDebug "Elixir 1.9.1" ⟨"0.2.24"⟩
     (by decide) (by decide)).1,
   (copy_debug_info_contents envDebug "Elixir 1.9.1" ⟨"0.2.24"⟩
     (by decide) (by decide)).2.1,
   (copy_debug_info_contents envDebug "Elixir 1.9.1" ⟨"0.2.24"⟩
     (by decide) (by decide)).2.2.2.1⟩

/-- C7: `deactivate` with the module-level client handle unset returns
`undefined` without stopping anything; with the handle set it returns
the result of stopping that client. -/
theorem deactivate_behavior :
    deactivate none = (DeactivateResult.undef, []) ∧
    ∀ client, deactivate (some client) =
      (DeactivateResult.stopping client, [Event.clientStop]) :=
  ⟨rfl, fun _ => rfl⟩

/-- C8: when the fixed identifier `jakebecker.elixir-ls` is not in the
registry, the debug-info command throws before producing a clipboard
report or a notification. -/
theorem copy_debug_info_null_deref (env : HostEnv)
    (he : env.getExtension "jakebecker.elixir-ls" = none) :
    (copyDebugInfo env).1 = true ∧
    clipboardOf (copyDebugInfo env).2 = [] ∧
    infosOf (copyDebugInfo env).2 = [] := by
  rcases hv : env.execResult "elixir --version" with _ | v
  · refine ⟨?_, ?_, ?_⟩ <;> simp [copyDebugInfo, hv, clipboardOf, infosOf]
  · refine ⟨?_, ?_, ?_⟩ <;> simp [copyDebugInfo, hv, he, clipboardOf, infosOf]

/-- A host environment in which the version query succeeds but the
fixed extension identifier is not installed (the forked extension ships
under a different identifier). -/
def envNoManifest : HostEnv :=
  { execResult := fun c =>
      if c = "elixir --version" then some "Elixir 1.9.1" else none,
    whichElixir := none,
    getExtension := fun _ => none,
    platform := "win32",
    release := "10.0.18362",
    pathVar := "C:\\Windows;C:\\elixir\\bin",
    extensionPath := "C:/Users/dev/.vscode/extensions/elixir-ls" }

theorem copy_debug_info_null_deref_witness :
    envNoManifest.getExtension "jakebecker.elixir-ls" = none ∧
    (copyDebugInfo envNoManifest).1 = true ∧
    clipboardOf (copyDebugInfo envNoManifest).2 = [] :=
  ⟨rfl, (copy_debug_info_null_deref envNoManifest rfl).1,
    (copy_debug_info_null_deref envNoManifest rfl).2.1⟩

/-- C9: when the bare `elixir --version` invocation is not runnable,
the debug-info command throws immediately: its only effect is the
single failed process execution — no retry via path resolution, no
notification and no clipboard write. -/
theorem copy_debug_info_no_fallback (env : HostEnv)
    (hv : env.execResult "elixir --version" = none) :
    copyDebugInfo env = (true, [Event.exec "elixir --version"]) ∧
    infosOf (copyDebugInfo env).2 = [] ∧
    clipboardOf (copyDebugInfo env).2 = [] ∧
    execsOf (copyDebugInfo env).2 = ["elixir --version"] := by
  have h : copyDebugInfo env = (true, [Event.exec "elixir --version"]) := by
    simp [copyDebugInfo, hv]
  refine ⟨h, ?_, ?_, ?_⟩ <;> rw [h] <;> simp [infosOf, clipboardOf, execsOf]

theorem copy_debug_info_no_fallback_witness :
    envMissing.execResult "elixir --version" = none ∧
    copyDebugInfo envMissing = (true, [Event.exec "elixir --version"]) :=
  ⟨rfl, (copy_debug_info_no_fallback envMissing rfl).1⟩

/-- C10: the client registers the server for exactly the `elixir`
documents with schemes `file` and `untitled`, synchronizes exactly the
`elixirLS` settings section, creates exactly one file-system watcher
with the Elixir-sources glob, and never reveals the output channel on
errors. -/
theorem client_options_exact (env : HostEnv) :
    (activate env).languageClient.clientOptions.documentSelector =
      [⟨"elixir", "file"⟩, ⟨"elixir", "untitled"⟩] ∧
    (activate env).languageClient.clientOptions.synchronize.configurationSection =
      "elixirLS" ∧
    (activate env).languageClient.clientOptions.synchronize.fileEvents =
      [elixirWatchGlob] ∧
    watchersOf (activate env).trace = [elixirWatchGlob] ∧
    (activate env).languageClient.clientOptions.revealOutputChannelOn =
      RevealOutputChannelOn.Never := by
  refine ⟨rfl, rfl, rfl, ?_, rfl⟩
  rw [activate_trace]
  rw [watchersOf_append, watchersOf_append, watchersOf_append, watchersOf_append]
  rw [watchersOf_testElixir,
      watchersOf_detectConflictingExtension,
      watchersOf_detectConflictingExtension,
      watchersOf_detectConflictingExtension]
  simp [watchersOf]
